import Mathlib

/-!
Shallow embedding of the chrono-nutrition meal-scheduling engine
(modules `meal_timing`, `macro_allocation`, `circadian`, `mps`, `scheduler`,
`models`) and proofs about the frozen claims.

Python wall-clock times are embedded as hour/minute pairs, Python floats as
exact rationals, Python `int` as `Int`, fallible code as `Option`.
-/

/-- A wall-clock time of day (`datetime.time` restricted to hour/minute,
as used throughout the engine). -/
structure Wtime where
  hour : Nat
  minute : Nat
deriving DecidableEq, Repr

/-- Source `time_to_minutes`: minutes since midnight. -/
def time_to_minutes (t : Wtime) : Int :=
  (t.hour : Int) * 60 + t.minute

/-- Source `minutes_to_time`: minutes since midnight back to a time, wrapping
modulo 24h exactly as the Python `minutes % (24 * 60)`. -/
def minutes_to_time (minutes : Int) : Wtime :=
  let m := (minutes % (24 * 60)).toNat
  ⟨m / 60, m % 60⟩

/-- Source `add_minutes_to_time`: add (possibly negative) minutes, wrapping past
midnight. -/
def add_minutes_to_time (t : Wtime) (minutes : Int) : Wtime :=
  minutes_to_time (time_to_minutes t + minutes)

/-- Source `time_difference_minutes`: signed minutes from `t1` to `t2`; a raw
difference below −12h is shifted by one day (t2 assumed to be tomorrow). -/
def time_difference_minutes (t1 t2 : Wtime) : Int :=
  let diff := time_to_minutes t2 - time_to_minutes t1
  if diff < -12 * 60 then diff + 24 * 60 else diff

/-- Source `MealType` enum from `models.py`. -/
inductive MealType where
  | breakfast | lunch | dinner | pre_workout | post_workout | snack
deriving DecidableEq, Repr

/-- Source `WorkoutType` enum (the three string-valued members reachable from
parsing). -/
inductive WorkoutType where
  | lifting | cardio | hybrid
deriving DecidableEq, Repr

/-- Source `Goal` enum from `models.py`. -/
inductive Goal where
  | muscle_gain | fat_loss | maintenance | performance
deriving DecidableEq, Repr

/-- Source `UserInputs` after `__post_init__` has run: the carb/fat targets are
concrete. -/
structure UserInputs where
  wake_time : Wtime
  sleep_time : Wtime
  daily_calories : Int
  daily_protein_g : Int
  num_meals : Nat
  goal : Goal
  workout_time : Option Wtime
  workout_type : Option WorkoutType
  workout_duration_min : Int
  daily_carbs_g : Int
  daily_fat_g : Int
deriving DecidableEq, Repr

/-- Python `int(x)` on a float value: truncation toward zero. -/
def pyInt (q : ℚ) : Int :=
  if 0 ≤ q then ⌊q⌋ else -⌊-q⌋

/-- Python `round(x)` on a float value: round half to even. -/
def pyRound (q : ℚ) : Int :=
  let f := ⌊q⌋
  let r := q - f
  if r < 1/2 then f
  else if 1/2 < r then f + 1
  else if f % 2 = 0 then f else f + 1

/-- Source `UserInputs.__post_init__`: derive missing carb/fat targets from the
calories left after protein, split by a goal-dependent ratio. -/
def mkUserInputs (wake_time sleep_time : Wtime) (daily_calories daily_protein_g : Int)
    (num_meals : Nat) (goal : Goal) (workout_time : Option Wtime)
    (workout_type : Option WorkoutType) (workout_duration_min : Int)
    (daily_carbs_g daily_fat_g : Option Int) : UserInputs :=
  let protein_cals := daily_protein_g * 4
  let remaining_cals := daily_calories - protein_cals
  let carb_ratio : ℚ :=
    match goal with
    | .muscle_gain => 0.6
    | .fat_loss => 0.4
    | _ => 0.5
  let carbs := daily_carbs_g.getD (pyInt ((remaining_cals * carb_ratio) / 4))
  let fat := daily_fat_g.getD (pyInt ((remaining_cals * (1 - carb_ratio)) / 9))
  ⟨wake_time, sleep_time, daily_calories, daily_protein_g, num_meals, goal,
    workout_time, workout_type, workout_duration_min, carbs, fat⟩

/-- Source `hours_since_waking` (`circadian.py`): hours from wake to `t`, treating a
time before wake as belonging to the next day. -/
def hours_since_waking (wake_time current_time : Wtime) : ℚ :=
  let mw := time_to_minutes wake_time
  let mc := time_to_minutes current_time
  let minutes : Int := mc - mw + (if mc < mw then 24 * 60 else 0)
  (minutes : ℚ) / 60

/-- Source `get_insulin_sensitivity` (`circadian.py`): circadian step function of
hours since waking. -/
def get_insulin_sensitivity (wake_time meal_time : Wtime) : ℚ :=
  let hours := hours_since_waking wake_time meal_time
  if hours < 0 then 0.3
  else if hours < 2 then 0.9
  else if hours < 6 then 1.0
  else if hours < 10 then 0.7
  else if hours < 14 then 0.5
  else 0.3

/-- The insulin-sensitivity step function exactly as the claim words it
(value as a function of the hours-since-waking argument). -/
def insulinStepSpec (h : ℚ) : ℚ :=
  if h < 0 then 0.3
  else if h < 2 then 0.9
  else if h < 6 then 1.0
  else if h < 10 then 0.7
  else if h < 14 then 0.5
  else 0.3

/-- Source `MIN_PROTEIN_PER_MEAL` (`mps.py`). -/
def MIN_PROTEIN_PER_MEAL : Int := 25

/-- Source `MAX_PROTEIN_PER_MEAL` (`mps.py`). -/
def MAX_PROTEIN_PER_MEAL : Int := 40

/-- Source `get_post_workout_protein_boost` (`mps.py`), as invoked by the macro
allocator with `is_post_workout=True` and the workout type's string value. -/
def get_post_workout_protein_boost (base_protein : Int)
    (workout_type : Option WorkoutType) : Int :=
  let boost_factor : ℚ :=
    match workout_type with
    | some .lifting => 1.35
    | some .hybrid => 1.32
    | _ => 1.30
  let boosted := pyInt ((base_protein : ℚ) * boost_factor)
  min boosted 50

/-- Source `AnchorPoint` (`meal_timing.py`): a fixed time with a meal type and a
pruning priority. -/
structure AnchorPoint where
  time : Wtime
  meal_type : MealType
  priority : Int
deriving DecidableEq, Repr

/-- Source `calculate_anchor_points`: the insertion-ordered dict of anchors. -/
def calculate_anchor_points (user : UserInputs) : List (String × AnchorPoint) :=
  [("first_meal", ⟨add_minutes_to_time user.wake_time 45, .breakfast, 3⟩),
   ("last_meal", ⟨add_minutes_to_time user.sleep_time (-165), .dinner, 3⟩)]
  ++ (match user.workout_time with
      | some w =>
        [("pre_workout", ⟨add_minutes_to_time w (-105), .pre_workout, 4⟩),
         ("post_workout",
          ⟨add_minutes_to_time (add_minutes_to_time w user.workout_duration_min) 75,
           .post_workout, 5⟩)]
      | none => [])

/-- Source `get_available_window`: the eating window (wake+30min, sleep−120min). -/
def get_available_window (user : UserInputs) : Wtime × Wtime :=
  (add_minutes_to_time user.wake_time 30, add_minutes_to_time user.sleep_time (-120))

/-- Source `get_workout_end_time` (`meal_timing.py`). -/
def get_workout_end_time (user : UserInputs) : Option Wtime :=
  user.workout_time.map (fun w => add_minutes_to_time w user.workout_duration_min)

/-- Working triple of the distributor: (time, meal type, priority). -/
abbrev MealT : Type := Wtime × MealType × Int

/-- Python's stable `sort(key=lambda x: time_to_minutes(x[0]))` as a total
preorder on meal triples. -/
def timeLe (a b : MealT) : Prop := time_to_minutes a.1 ≤ time_to_minutes b.1

/-- Python's stable `sort(key=lambda x: -x[2])` (priority descending) as a
total preorder on meal triples. -/
def prioGe (a b : MealT) : Prop := b.2.2 ≤ a.2.2

instance : DecidableRel timeLe := fun a b =>
  inferInstanceAs (Decidable (time_to_minutes a.1 ≤ time_to_minutes b.1))

instance : DecidableRel prioGe := fun a b =>
  inferInstanceAs (Decidable (b.2.2 ≤ a.2.2))

instance : IsTotal MealT timeLe := ⟨fun _ _ => Int.le_total _ _⟩

instance : IsTrans MealT timeLe := ⟨fun _ _ _ h1 h2 => le_trans h1 h2⟩

instance : IsTotal MealT prioGe := ⟨fun _ _ => (Int.le_total _ _).symm⟩

instance : IsTrans MealT prioGe := ⟨fun _ _ _ h1 h2 => le_trans h2 h1⟩

/-- Source `_determine_meal_type` (`meal_timing.py`): heuristic type for a filler
meal, from elapsed hours since waking and the types already present. -/
def determine_meal_type (meal_time : Wtime) (user : UserInputs)
    (existing_meals : List MealT) : MealType :=
  let hours_since_wake : ℚ :=
    (time_difference_minutes user.wake_time meal_time : ℚ) / 60
  let has := fun (mt : MealType) => existing_meals.any (fun m => decide (m.2.1 = mt))
  if hours_since_wake < 4 ∧ ¬ has .breakfast then .breakfast
  else if hours_since_wake < 8 ∧ ¬ has .lunch then .lunch
  else if hours_since_wake > 10 ∧ ¬ has .dinner then .dinner
  else .snack

/-- Python `list.insert(idx, x)`: indices past the end append. -/
def pyInsert (x : α) : Nat → List α → List α
  | 0, l => x :: l
  | _ + 1, [] => [x]
  | n + 1, y :: l => y :: pyInsert x n l

/-- Accumulator of the gap search in `distribute_meals`: the largest gap seen,
the insertion index, and the candidate insertion time. -/
structure InsState where
  largest : Int
  idx : Nat
  itime : Option Wtime
deriving Repr

/-- The `for i in range(len(meals) - 1)` loop over consecutive meal pairs:
bisect the largest eligible gap at its temporal midpoint. -/
def gapFold (s : InsState) (i : Nat) : List MealT → InsState
  | a :: b :: rest =>
    let gap := time_difference_minutes a.1 b.1
    let s' :=
      if s.largest < gap ∧ 150 * 2 ≤ gap then
        ⟨gap, i + 1, some (minutes_to_time (time_to_minutes a.1 + Int.ediv gap 2))⟩
      else s
    gapFold s' (i + 1) (b :: rest)
  | _ => s

/-- The first meal time used for the leading-gap check (`meals[0][0] if meals
else window_end`). -/
def firstMealTime (window_end : Wtime) : List MealT → Wtime
  | [] => window_end
  | m :: _ => m.1

/-- One iteration of the filler-insertion loop of `distribute_meals`: find the
single largest eligible gap (before the first meal, between consecutive meals,
or after the last meal) and insert one meal at its midpoint; if no gap of at
least 300 minutes exists, change nothing. -/
def insertStep (user : UserInputs) (meals : List MealT) : List MealT :=
  let window_start := (get_available_window user).1
  let window_end := (get_available_window user).2
  let gap_before := time_difference_minutes window_start (firstMealTime window_end meals)
  let s1 : InsState :=
    if (0 : Int) < gap_before ∧ 150 * 2 ≤ gap_before then
      ⟨gap_before, 0, some (add_minutes_to_time window_start (Int.ediv gap_before 2))⟩
    else ⟨0, 0, none⟩
  let s2 := gapFold s1 0 meals
  let s3 : InsState :=
    match meals.getLast? with
    | none => s2
    | some lastm =>
      let gap_after := time_difference_minutes lastm.1 window_end
      if s2.largest < gap_after ∧ 150 * 2 ≤ gap_after then
        ⟨gap_after, meals.length, some (add_minutes_to_time lastm.1 (Int.ediv gap_after 2))⟩
      else s2
  match s3.itime with
  | none => meals
  | some t => pyInsert (t, determine_meal_type t user meals, 1) s3.idx meals

/-- Source `for _ in range(needed)`: iterate the insertion step. -/
def insertLoop (user : UserInputs) : Nat → List MealT → List MealT
  | 0, meals => meals
  | n + 1, meals => insertLoop user n (insertStep user meals)

/-- The `(anchor.time, anchor.meal_type, anchor.priority)` triples taken from
the anchor dict's values, in insertion order. -/
def anchorTuples (anchors : List (String × AnchorPoint)) : List MealT :=
  anchors.map (fun a => (a.2.time, a.2.meal_type, a.2.priority))

/-- Source `distribute_meals` (`meal_timing.py`). -/
def distribute_meals (user : UserInputs) (anchors : List (String × AnchorPoint)) :
    List (Wtime × MealType) :=
  let meals0 := anchorTuples anchors
  let meals1 := List.insertionSort timeLe meals0
  let needed : Int := (user.num_meals : Int) - meals1.length
  if needed ≤ 0 then
    if needed < 0 then
      let byPrio := List.insertionSort prioGe meals1
      let kept := byPrio.take user.num_meals
      (List.insertionSort timeLe kept).map (fun m => (m.1, m.2.1))
    else
      meals1.map (fun m => (m.1, m.2.1))
  else
    let finalMeals := insertLoop user needed.toNat meals1
    (List.insertionSort timeLe finalMeals).map (fun m => (m.1, m.2.1))

/-- Source `MealMacros` (`macro_allocation.py`). -/
structure MealMacros where
  protein_g : Int
  carbs_g : Int
  fat_g : Int
  calories : Int
deriving DecidableEq, Repr

/-- Source `MealMacros.calculate_calories`. -/
def calculate_calories (protein carbs fat : Int) : Int :=
  protein * 4 + carbs * 4 + fat * 9

/-- One raw (pre-normalization) allocation record of `allocate_macros`. -/
structure RawAlloc where
  protein : ℚ
  carbs : ℚ
  fat : ℚ
  meal_type : MealType
deriving DecidableEq, Repr

/-- The per-meal raw-adjustment pass of `allocate_macros` (the loop body of
step 2): post-workout protein boost, insulin-sensitivity carb weighting,
pre-workout overrides, pre-sleep overrides. -/
def rawAdjust (user : UserInputs) (base_protein base_carbs base_fat : ℚ)
    (meal : Wtime × MealType) : RawAlloc :=
  let insulin_sens := get_insulin_sensitivity user.wake_time meal.1
  let is_post_workout := meal.2 = MealType.post_workout
  let is_pre_workout := meal.2 = MealType.pre_workout
  let hours_to_sleep : ℚ :=
    (time_difference_minutes meal.1 user.sleep_time : ℚ) / 60
  let protein : ℚ :=
    if is_post_workout ∧ user.workout_type.isSome then
      (get_post_workout_protein_boost (pyInt base_protein) user.workout_type : ℚ)
    else base_protein
  let carbs := base_carbs * (insulin_sens / 0.7)
  let fat := base_fat
  let carbs := if is_pre_workout then base_carbs * 1.2 else carbs
  let fat := if is_pre_workout then base_fat * 0.5 else fat
  let carbs := if 0 < hours_to_sleep ∧ hours_to_sleep ≤ 3 then base_carbs * 0.6 else carbs
  let protein := if 0 < hours_to_sleep ∧ hours_to_sleep ≤ 3 then min protein 35 else protein
  ⟨protein, carbs, fat, meal.2⟩

/-- The scaling-and-reconciliation loop of `allocate_macros` (step 3 onward):
every meal but the last is scaled and rounded, the last meal receives
`daily_target − running` for each macro, and the protein floor is applied to
the result in either case. -/
def allocFinalize (user : UserInputs) (pscale cscale fscale : ℚ)
    (running_protein running_carbs running_fat : Int) :
    List RawAlloc → List MealMacros
  | [] => []
  | [_] =>
    let protein0 := user.daily_protein_g - running_protein
    let carbs := user.daily_carbs_g - running_carbs
    let fat := user.daily_fat_g - running_fat
    let protein := max protein0 MIN_PROTEIN_PER_MEAL
    [⟨protein, carbs, fat, calculate_calories protein carbs fat⟩]
  | a :: b :: t =>
    let protein0 := pyRound (a.protein * pscale)
    let carbs := pyRound (a.carbs * cscale)
    let fat := pyRound (a.fat * fscale)
    let protein := max protein0 MIN_PROTEIN_PER_MEAL
    ⟨protein, carbs, fat, calculate_calories protein carbs fat⟩ ::
      allocFinalize user pscale cscale fscale
        (running_protein + protein) (running_carbs + carbs) (running_fat + fat)
        (b :: t)

/-- Source `allocate_macros` (`macro_allocation.py`). The Python code divides the
daily targets by the meal count up front, so an empty meal list raises
`ZeroDivisionError`; that failure is embedded as `none`. -/
def allocate_macros (meal_times : List (Wtime × MealType)) (user : UserInputs) :
    Option (List MealMacros) :=
  match meal_times with
  | [] => none
  | _ =>
    let num_meals : ℚ := meal_times.length
    let base_protein := (user.daily_protein_g : ℚ) / num_meals
    let base_carbs := (user.daily_carbs_g : ℚ) / num_meals
    let base_fat := (user.daily_fat_g : ℚ) / num_meals
    let raw_allocations := meal_times.map (rawAdjust user base_protein base_carbs base_fat)
    let total_protein := (raw_allocations.map (·.protein)).sum
    let total_carbs := (raw_allocations.map (·.carbs)).sum
    let total_fat := (raw_allocations.map (·.fat)).sum
    let protein_scale := if 0 < total_protein then (user.daily_protein_g : ℚ) / total_protein else 1
    let carbs_scale := if 0 < total_carbs then (user.daily_carbs_g : ℚ) / total_carbs else 1
    let fat_scale := if 0 < total_fat then (user.daily_fat_g : ℚ) / total_fat else 1
    some (allocFinalize user protein_scale carbs_scale fat_scale 0 0 0 raw_allocations)

/-- Python `str.split(sep)` for a single-character separator, over the
character list of the string. -/
def pySplitChar (sep : Char) (acc : List Char) : List Char → List (List Char)
  | [] => [acc.reverse]
  | c :: cs =>
    if c = sep then acc.reverse :: pySplitChar sep [] cs
    else pySplitChar sep (c :: acc) cs

/-- Python `int(s)` on the decimal-digit strings fed to it here; a string
that is empty or not all digits raises `ValueError` (embedded as `none`). -/
def pyParseInt (l : List Char) : Option Int :=
  if l = [] then none
  else if l.all (fun c => c.isDigit) then
    some (l.foldl (fun acc c => acc * 10 + ((c.toNat : Int) - 48)) 0)
  else none

/-- Source `parse_time` (`scheduler.py`): split on ":", convert the first two parts
with `int`, and build a `time` (whose constructor rejects out-of-range
fields). -/
def parse_time (s : String) : Option Wtime :=
  match pySplitChar ':' [] s.data with
  | p0 :: p1 :: _ =>
    match pyParseInt p0, pyParseInt p1 with
    | some h, some m =>
      if 0 ≤ h ∧ h < 24 ∧ 0 ≤ m ∧ m < 60 then some ⟨h.toNat, m.toNat⟩ else none
    | _, _ => none
  | _ => none

/-- Source `Goal(value)` lookup. -/
def goalOfString (s : String) : Option Goal :=
  if s = "muscle_gain" then some .muscle_gain
  else if s = "fat_loss" then some .fat_loss
  else if s = "maintenance" then some .maintenance
  else if s = "performance" then some .performance
  else none

/-- Source `WorkoutType(value)` lookup for the string-valued members. -/
def workoutTypeOfString (s : String) : Option WorkoutType :=
  if s = "lifting" then some .lifting
  else if s = "cardio" then some .cardio
  else if s = "hybrid" then some .hybrid
  else none

/-- The raw request dictionary consumed by `parse_user_inputs`: `Option`
fields are `data.get(...)` keys that may be absent. -/
structure RawInputs where
  wake_time : String
  sleep_time : String
  workout_time : Option String := none
  workout_type : Option String := none
  workout_duration_min : Option Int := none
  daily_calories : Int
  daily_protein_g : Int
  daily_carbs_g : Option Int := none
  daily_fat_g : Option Int := none
  num_meals : Option Nat := none
  goal : Option String := none

/-- Source `parse_user_inputs` (`scheduler.py`): parse times and enums, default the
optional fields, and build `UserInputs` (running `__post_init__`). Any raised
exception is embedded as `none`. Note that no field is range-checked beyond
what `time(...)` and the enum constructors enforce. -/
def parse_user_inputs (data : RawInputs) : Option UserInputs := do
  let wake ← parse_time data.wake_time
  let sleep ← parse_time data.sleep_time
  let workout ←
    match data.workout_time with
    | some s => if s = "" then pure none else (parse_time s).map some
    | none => pure none
  let wtype ←
    match data.workout_type with
    | some s => if s = "" then pure none else (workoutTypeOfString s).map some
    | none => pure none
  let goal ← goalOfString (data.goal.getD "maintenance")
  pure (mkUserInputs wake sleep data.daily_calories data.daily_protein_g
    (data.num_meals.getD 4) goal workout wtype (data.workout_duration_min.getD 60)
    data.daily_carbs_g data.daily_fat_g)

/-- The final meal list's ordering key: minutes since midnight of the meal
time (the comparison actually used by every sort in `distribute_meals`). -/
def mealTimeLe (a b : Wtime × MealType) : Prop :=
  time_to_minutes a.1 ≤ time_to_minutes b.1

/-- The anchors as ordered by the trimming pass: time-sorted, then stably
sorted by priority descending. -/
def rankedByPriority (anchors : List (String × AnchorPoint)) : List MealT :=
  List.insertionSort prioGe (List.insertionSort timeLe (anchorTuples anchors))

/-- Example user: wake 07:00, sleep 23:00, rest day, 3 meals, 60 g protein,
210 g carbs, 60 g fat. -/
def userA : UserInputs :=
  ⟨⟨7, 0⟩, ⟨23, 0⟩, 2000, 60, 3, .maintenance, none, none, 60, 210, 60⟩

/-- The meal list the engine produces for `userA`. -/
def mealsA : List (Wtime × MealType) :=
  [(⟨7, 45⟩, .breakfast), (⟨14, 0⟩, .lunch), (⟨20, 15⟩, .dinner)]

/-- The macro allocation the engine produces for `userA` on `mealsA`. -/
def macrosA : List MealMacros :=
  [⟨25, 94, 20, 656⟩, ⟨25, 73, 20, 572⟩, ⟨25, 43, 20, 452⟩]

/-- Example user whose first-meal anchor (wake+45) coincides with the
pre-workout anchor (workout−105): wake 07:00, workout 09:30. -/
def userB : UserInputs :=
  ⟨⟨7, 0⟩, ⟨23, 0⟩, 2500, 180, 4, .muscle_gain, some ⟨9, 30⟩, some .lifting, 60, 280, 70⟩

/-- Example user with four anchors but only three requested meals (trimming
occurs). -/
def userC : UserInputs :=
  ⟨⟨7, 0⟩, ⟨23, 0⟩, 2500, 180, 3, .muscle_gain, some ⟨17, 0⟩, some .lifting, 60, 280, 70⟩

/-- Example rest-day user requesting exactly as many meals as there are
anchors (two), so no filler insertion occurs. -/
def userE : UserInputs :=
  ⟨⟨7, 0⟩, ⟨23, 0⟩, 2000, 100, 2, .maintenance, none, none, 60, 200, 88⟩

/-- Raw request with a meal count of zero. -/
def rawD : RawInputs :=
  { wake_time := "07:00", sleep_time := "23:00", daily_calories := 2000,
    daily_protein_g := 100, daily_carbs_g := some 200, daily_fat_g := some 88,
    num_meals := some 0, goal := some "maintenance" }

/-- C8: `get_insulin_sensitivity` is the claimed step function of hours since
waking: 0.9 on [0,2), 1.0 on [2,6), 0.7 on [6,10), 0.5 on [10,14), 0.3 from
14 on and for negative arguments; at zero hours since waking (meal at wake
time) it returns 0.9; and it is non-increasing from hour 2 on. -/
theorem insulin_sensitivity_spec :
    (∀ w m : Wtime, get_insulin_sensitivity w m = insulinStepSpec (hours_since_waking w m))
  ∧ (∀ h : ℚ, h < 0 → insulinStepSpec h = 0.3)
  ∧ (∀ h : ℚ, 0 ≤ h → h < 2 → insulinStepSpec h = 0.9)
  ∧ (∀ h : ℚ, 2 ≤ h → h < 6 → insulinStepSpec h = 1.0)
  ∧ (∀ h : ℚ, 6 ≤ h → h < 10 → insulinStepSpec h = 0.7)
  ∧ (∀ h : ℚ, 10 ≤ h → h < 14 → insulinStepSpec h = 0.5)
  ∧ (∀ h : ℚ, 14 ≤ h → insulinStepSpec h = 0.3)
  ∧ (∀ w : Wtime, get_insulin_sensitivity w w = 0.9)
  ∧ (∀ h1 h2 : ℚ, 2 ≤ h1 → h1 ≤ h2 → insulinStepSpec h2 ≤ insulinStepSpec h1) := by
  refine ⟨fun w m => rfl, ?_, ?_, ?_, ?_, ?_, ?_, ?_, ?_⟩
  · intro h hh; unfold insulinStepSpec; rw [if_pos hh]
  · intro h h0 h2; unfold insulinStepSpec
    rw [if_neg (by linarith), if_pos h2]
  · intro h h2 h6; unfold insulinStepSpec
    rw [if_neg (by linarith), if_neg (by linarith), if_pos h6]
  · intro h h6 h10; unfold insulinStepSpec
    rw [if_neg (by linarith), if_neg (by linarith), if_neg (by linarith), if_pos h10]
  · intro h h10 h14; unfold insulinStepSpec
    rw [if_neg (by linarith), if_neg (by linarith), if_neg (by linarith),
      if_neg (by linarith), if_pos h14]
  · intro h h14; unfold insulinStepSpec
    rw [if_neg (by linarith), if_neg (by linarith), if_neg (by linarith),
      if_neg (by linarith), if_neg (by linarith)]
  · intro w
    show insulinStepSpec (hours_since_waking w w) = 0.9
    have hz : hours_since_waking w w = 0 := by
      unfold hours_since_waking
      simp
    rw [hz]
    norm_num [insulinStepSpec]
  · intro h1 h2 hle hord
    unfold insulinStepSpec
    split_ifs <;> norm_num <;> linarith

theorem insulin_sensitivity_spec_witness : insulinStepSpec 3 = 1.0 :=
  insulin_sensitivity_spec.2.2.2.1 3 (by norm_num) (by norm_num)

/-- C6: `calculate_anchor_points` produces the first-meal anchor at wake+45
(BREAKFAST, priority 3), the last-meal anchor at sleep−165 (DINNER, priority
3), and — exactly when a workout time is present — the pre-workout anchor at
workout−105 (PRE_WORKOUT, priority 4) and the post-workout anchor at
workout end + 75 (POST_WORKOUT, priority 5), all times wrapping modulo 24
hours. -/
theorem calculate_anchor_points_spec (u : UserInputs) :
    (calculate_anchor_points u).lookup "first_meal" =
      some ⟨add_minutes_to_time u.wake_time 45, .breakfast, 3⟩
  ∧ (calculate_anchor_points u).lookup "last_meal" =
      some ⟨add_minutes_to_time u.sleep_time (-165), .dinner, 3⟩
  ∧ (calculate_anchor_points u).lookup "pre_workout" =
      u.workout_time.map (fun w => ⟨add_minutes_to_time w (-105), .pre_workout, 4⟩)
  ∧ (calculate_anchor_points u).lookup "post_workout" =
      u.workout_time.map (fun w =>
        ⟨add_minutes_to_time (add_minutes_to_time w u.workout_duration_min) 75,
         .post_workout, 5⟩)
  ∧ (∀ (t : Wtime) (m : Int),
       time_to_minutes (add_minutes_to_time t m) = (time_to_minutes t + m) % (24 * 60)) := by
  refine ⟨?_, ?_, ?_, ?_, ?_⟩
  · cases u.workout_time <;> rfl
  · cases u.workout_time <;> rfl
  · rcases h : u.workout_time with _ | w <;> simp [calculate_anchor_points, h, List.lookup]
  · rcases h : u.workout_time with _ | w <;> simp [calculate_anchor_points, h, List.lookup]
  · intro t m
    dsimp only [add_minutes_to_time, minutes_to_time, time_to_minutes]
    have h0 : (0 : Int) ≤ ((t.hour : Int) * 60 + t.minute + m) % (24 * 60) :=
      Int.emod_nonneg _ (by norm_num)
    omega

/-- C3 counterexample: for a pre-workout meal at 09:00 (insulin sensitivity
1.0) far from sleep, the raw carb value is `base_carbs * 1.2` (84 for a base
of 70), not `base_carbs * (sensitivity/0.7) * 1.2` (which would be 120): the
bump replaces the insulin-sensitivity scaling instead of composing with it. -/
theorem pre_workout_carb_bump_cex :
    (rawAdjust userA 20 70 20 (⟨9, 0⟩, .pre_workout)).carbs = 84
  ∧ get_insulin_sensitivity userA.wake_time ⟨9, 0⟩ = 1.0
  ∧ (84 : ℚ) ≠ 70 * ((1.0 : ℚ) / 0.7) * 1.2 := by
  refine ⟨?_, ?_, by norm_num⟩
  · norm_num [rawAdjust, userA, time_difference_minutes, time_to_minutes,
      get_insulin_sensitivity, hours_since_waking]
  · norm_num [get_insulin_sensitivity, hours_since_waking, userA, time_to_minutes]

/-- C3 amended: in the raw-adjustment pass, a PRE_WORKOUT meal that is not
within 3 hours before sleep gets raw carbs equal to `base_carbs * 1.2`,
overriding (not composing with) the insulin-sensitivity scaling. -/
theorem pre_workout_carb_override (u : UserInputs) (bp bc bf : ℚ) (t : Wtime)
    (h : ¬ (0 < (time_difference_minutes t u.sleep_time : ℚ) / 60
        ∧ (time_difference_minutes t u.sleep_time : ℚ) / 60 ≤ 3)) :
    (rawAdjust u bp bc bf (t, .pre_workout)).carbs = bc * 1.2 := by
  simp only [rawAdjust]
  rw [if_neg h]
  simp

theorem pre_workout_carb_override_witness :
    ¬ (0 < (time_difference_minutes ⟨9, 0⟩ userA.sleep_time : ℚ) / 60
        ∧ (time_difference_minutes ⟨9, 0⟩ userA.sleep_time : ℚ) / 60 ≤ 3)
  ∧ (rawAdjust userA 20 70 20 (⟨9, 0⟩, .pre_workout)).carbs = 70 * 1.2 :=
  ⟨by norm_num [time_difference_minutes, time_to_minutes, userA],
   pre_workout_carb_override userA 20 70 20 ⟨9, 0⟩
     (by norm_num [time_difference_minutes, time_to_minutes, userA])⟩

theorem rawAdjustA1 : rawAdjust userA 20 70 20 (⟨7, 45⟩, .breakfast) = ⟨20, 90, 20, .breakfast⟩ := by
  norm_num [rawAdjust, userA, time_difference_minutes, time_to_minutes,
    get_insulin_sensitivity, hours_since_waking]
  decide

theorem rawAdjustA2 : rawAdjust userA 20 70 20 (⟨14, 0⟩, .lunch) = ⟨20, 70, 20, .lunch⟩ := by
  norm_num [rawAdjust, userA, time_difference_minutes, time_to_minutes,
    get_insulin_sensitivity, hours_since_waking]
  decide

theorem rawAdjustA3 : rawAdjust userA 20 70 20 (⟨20, 15⟩, .dinner) = ⟨20, 42, 20, .dinner⟩ := by
  norm_num [rawAdjust, userA, time_difference_minutes, time_to_minutes,
    get_insulin_sensitivity, hours_since_waking]
  decide

theorem allocEvalA : allocate_macros mealsA userA = some macrosA := by
  simp only [allocate_macros, mealsA, List.map]
  norm_num [show (userA.daily_protein_g : Int) = 60 from rfl,
    show (userA.daily_carbs_g : Int) = 210 from rfl,
    show (userA.daily_fat_g : Int) = 60 from rfl]
  rw [rawAdjustA1, rawAdjustA2, rawAdjustA3]
  norm_num [allocFinalize, pyRound, Int.fract, macrosA, calculate_calories,
    MIN_PROTEIN_PER_MEAL, max_def,
    show (userA.daily_protein_g : Int) = 60 from rfl,
    show (userA.daily_carbs_g : Int) = 210 from rfl,
    show (userA.daily_fat_g : Int) = 60 from rfl]

theorem allocFinalize_ne_nil (u : UserInputs) (ps cs fs : ℚ) :
    ∀ (raws : List RawAlloc) (rp rc rf : Int), raws ≠ [] →
      allocFinalize u ps cs fs rp rc rf raws ≠ []
  | [], _, _, _, h => absurd rfl h
  | [_], _, _, _, _ => by simp [allocFinalize]
  | _ :: _ :: _, _, _, _, _ => by simp [allocFinalize]

theorem allocFinalize_carbs_sum (u : UserInputs) (ps cs fs : ℚ) :
    ∀ (raws : List RawAlloc) (rp rc rf : Int), raws ≠ [] →
      ((allocFinalize u ps cs fs rp rc rf raws).map (fun m => m.carbs_g)).sum =
        u.daily_carbs_g - rc
  | [], _, _, _, h => absurd rfl h
  | [_], _, _, _, _ => by simp [allocFinalize]
  | a :: b :: t, rp, rc, rf, _ => by
    have ih := allocFinalize_carbs_sum u ps cs fs (b :: t)
      (rp + max (pyRound (a.protein * ps)) MIN_PROTEIN_PER_MEAL)
      (rc + pyRound (a.carbs * cs)) (rf + pyRound (a.fat * fs)) (by simp)
    simp only [allocFinalize, List.map_cons, List.sum_cons]
    rw [ih]
    ring

theorem allocFinalize_fat_sum (u : UserInputs) (ps cs fs : ℚ) :
    ∀ (raws : List RawAlloc) (rp rc rf : Int), raws ≠ [] →
      ((allocFinalize u ps cs fs rp rc rf raws).map (fun m => m.fat_g)).sum =
        u.daily_fat_g - rf
  | [], _, _, _, h => absurd rfl h
  | [_], _, _, _, _ => by simp [allocFinalize]
  | a :: b :: t, rp, rc, rf, _ => by
    have ih := allocFinalize_fat_sum u ps cs fs (b :: t)
      (rp + max (pyRound (a.protein * ps)) MIN_PROTEIN_PER_MEAL)
      (rc + pyRound (a.carbs * cs)) (rf + pyRound (a.fat * fs)) (by simp)
    simp only [allocFinalize, List.map_cons, List.sum_cons]
    rw [ih]
    ring

theorem allocFinalize_protein_sum (u : UserInputs) (ps cs fs : ℚ) :
    ∀ (raws : List RawAlloc) (rp rc rf : Int), raws ≠ [] →
      ((allocFinalize u ps cs fs rp rc rf raws).map (fun m => m.protein_g)).sum =
        max (u.daily_protein_g - rp)
          ((((allocFinalize u ps cs fs rp rc rf raws).dropLast.map
              (fun m => m.protein_g)).sum) + MIN_PROTEIN_PER_MEAL)
  | [], _, _, _, h => absurd rfl h
  | [_], _, _, _, _ => by simp [allocFinalize]
  | a :: b :: t, rp, rc, rf, _ => by
    have ih := allocFinalize_protein_sum u ps cs fs (b :: t)
      (rp + max (pyRound (a.protein * ps)) MIN_PROTEIN_PER_MEAL)
      (rc + pyRound (a.carbs * cs)) (rf + pyRound (a.fat * fs)) (by simp)
    have hne := allocFinalize_ne_nil u ps cs fs (b :: t)
      (rp + max (pyRound (a.protein * ps)) MIN_PROTEIN_PER_MEAL)
      (rc + pyRound (a.carbs * cs)) (rf + pyRound (a.fat * fs)) (by simp)
    simp only [allocFinalize, List.map_cons, List.sum_cons]
    rw [ih]
    rcases List.exists_cons_of_ne_nil hne with ⟨y, ys, hy⟩
    rw [hy, List.dropLast_cons₂]
    simp only [List.map_cons, List.sum_cons]
    rw [← hy]
    omega

theorem allocFinalize_getLast (u : UserInputs) (ps cs fs : ℚ) :
    ∀ (raws : List RawAlloc) (rp rc rf : Int), raws ≠ [] →
      ∃ last, (allocFinalize u ps cs fs rp rc rf raws).getLast? = some last ∧
        last.protein_g = max
          (u.daily_protein_g - (rp +
            ((allocFinalize u ps cs fs rp rc rf raws).dropLast.map
              (fun m => m.protein_g)).sum))
          MIN_PROTEIN_PER_MEAL
  | [], _, _, _, h => absurd rfl h
  | [a], rp, rc, rf, _ => by
    have hfin : allocFinalize u ps cs fs rp rc rf [a] =
        [⟨max (u.daily_protein_g - rp) MIN_PROTEIN_PER_MEAL, u.daily_carbs_g - rc,
          u.daily_fat_g - rf,
          calculate_calories (max (u.daily_protein_g - rp) MIN_PROTEIN_PER_MEAL)
            (u.daily_carbs_g - rc) (u.daily_fat_g - rf)⟩] := by
      simp [allocFinalize]
    rw [hfin]
    refine ⟨⟨max (u.daily_protein_g - rp) MIN_PROTEIN_PER_MEAL, u.daily_carbs_g - rc,
      u.daily_fat_g - rf,
      calculate_calories (max (u.daily_protein_g - rp) MIN_PROTEIN_PER_MEAL)
        (u.daily_carbs_g - rc) (u.daily_fat_g - rf)⟩, by simp, by simp⟩
  | a :: b :: t, rp, rc, rf, _ => by
    obtain ⟨last, hl, hp⟩ := allocFinalize_getLast u ps cs fs (b :: t)
      (rp + max (pyRound (a.protein * ps)) MIN_PROTEIN_PER_MEAL)
      (rc + pyRound (a.carbs * cs)) (rf + pyRound (a.fat * fs)) (by simp)
    have hne := allocFinalize_ne_nil u ps cs fs (b :: t)
      (rp + max (pyRound (a.protein * ps)) MIN_PROTEIN_PER_MEAL)
      (rc + pyRound (a.carbs * cs)) (rf + pyRound (a.fat * fs)) (by simp)
    rcases List.exists_cons_of_ne_nil hne with ⟨y, ys, hy⟩
    refine ⟨last, ?_, ?_⟩
    · simp only [allocFinalize]
      rw [hy, List.getLast?_cons_cons, ← hy]
      exact hl
    · simp only [allocFinalize]
      rw [hy, List.dropLast_cons₂, ← hy]
      simp only [List.map_cons, List.sum_cons]
      rw [hp]
      omega

/-- C1 counterexample: for wake 07:00 / sleep 23:00 / 3 meals / 60 g daily
protein (meals 07:45, 14:00, 20:15), every meal is floored to 25 g protein —
including the last — so the returned protein total is 75 g, not the 60 g
daily target: exact reconciliation fails. -/
theorem exact_reconciliation_cex :
    (allocate_macros mealsA userA).map (fun l => (l.map (fun m => m.protein_g)).sum) = some 75
  ∧ userA.daily_protein_g = 60
  ∧ (75 : Int) ≠ 60 := by
  refine ⟨?_, rfl, by decide⟩
  rw [allocEvalA]
  decide

/-- C1 (amended): carbs and fat always reconcile exactly (the last meal gets
the exact remainder for each), but the protein total equals
`max daily_protein_g (protein of all-but-last + 25)`: it equals the daily
target exactly if and only if the last meal's remainder is at least the 25 g
floor, and otherwise exceeds it, because the floor is applied to the last
meal as well. -/
theorem allocate_macros_reconciliation (mts : List (Wtime × MealType)) (u : UserInputs)
    (l : List MealMacros) (h : allocate_macros mts u = some l) :
    (l.map (fun m => m.carbs_g)).sum = u.daily_carbs_g
  ∧ (l.map (fun m => m.fat_g)).sum = u.daily_fat_g
  ∧ (l.map (fun m => m.protein_g)).sum =
      max u.daily_protein_g
        ((l.dropLast.map (fun m => m.protein_g)).sum + MIN_PROTEIN_PER_MEAL) := by
  cases mts with
  | nil => simp [allocate_macros] at h
  | cons m rest =>
    simp only [allocate_macros, Option.some.injEq] at h
    subst h
    refine ⟨?_, ?_, ?_⟩
    · simpa using allocFinalize_carbs_sum u _ _ _ _ 0 0 0 (by simp)
    · simpa using allocFinalize_fat_sum u _ _ _ _ 0 0 0 (by simp)
    · simpa using allocFinalize_protein_sum u _ _ _ _ 0 0 0 (by simp)

theorem allocate_macros_reconciliation_witness :
    (macrosA.map (fun m => m.carbs_g)).sum = userA.daily_carbs_g
  ∧ (macrosA.map (fun m => m.fat_g)).sum = userA.daily_fat_g
  ∧ (macrosA.map (fun m => m.protein_g)).sum =
      max userA.daily_protein_g
        ((macrosA.dropLast.map (fun m => m.protein_g)).sum + MIN_PROTEIN_PER_MEAL) :=
  allocate_macros_reconciliation mealsA userA macrosA allocEvalA

/-- C2 counterexample: on the same inputs the last meal's protein is 25 g,
not the exact remainder 60 − 50 = 10 g; the 25 g floor IS applied after the
remainder assignment, so the last meal can never fall below 25 g. -/
theorem last_meal_remainder_cex :
    (allocate_macros mealsA userA).map (fun l => l.getLast?.map (fun m => m.protein_g)) =
      some (some 25)
  ∧ (allocate_macros mealsA userA).map
      (fun l => (l.dropLast.map (fun m => m.protein_g)).sum) = some 50
  ∧ userA.daily_protein_g = 60
  ∧ (25 : Int) ≠ 60 - 50 := by
  refine ⟨?_, ?_, rfl, by decide⟩ <;> rw [allocEvalA] <;> decide

/-- C2 (amended): the 25 g minimum-protein floor is applied to every meal
including the last: the last meal's protein is
`max (daily_protein_g − protein already assigned) 25`, hence never below
25 g (and exact reconciliation breaks whenever the remainder is below 25). -/
theorem last_meal_protein_floor_thm (mts : List (Wtime × MealType)) (u : UserInputs)
    (l : List MealMacros) (last : MealMacros) (h : allocate_macros mts u = some l)
    (hl : l.getLast? = some last) :
    last.protein_g =
      max (u.daily_protein_g - (l.dropLast.map (fun m => m.protein_g)).sum)
        MIN_PROTEIN_PER_MEAL
  ∧ MIN_PROTEIN_PER_MEAL ≤ last.protein_g := by
  cases mts with
  | nil => simp [allocate_macros] at h
  | cons m rest =>
    simp only [allocate_macros, Option.some.injEq] at h
    subst h
    obtain ⟨last', hl', hp⟩ := allocFinalize_getLast u _ _ _ _ 0 0 0
      (show (m :: rest).map _ ≠ [] by simp)
    rw [hl'] at hl
    obtain rfl := Option.some.inj hl
    constructor
    · simpa using hp
    · rw [hp]
      exact le_max_right _ _

theorem last_meal_protein_floor_witness :
    (⟨25, 43, 20, 452⟩ : MealMacros).protein_g =
      max (userA.daily_protein_g - (macrosA.dropLast.map (fun m => m.protein_g)).sum)
        MIN_PROTEIN_PER_MEAL
  ∧ MIN_PROTEIN_PER_MEAL ≤ (⟨25, 43, 20, 452⟩ : MealMacros).protein_g :=
  last_meal_protein_floor_thm mealsA userA macrosA ⟨25, 43, 20, 452⟩ allocEvalA (by decide)

/-- C4 counterexample: a request with `num_meals = 0` is accepted by
`parse_user_inputs` (no meal-count range check exists anywhere before
scheduling), and the pipeline then invokes `allocate_macros` on the empty
meal list, where the per-meal base division by the meal count is a division
by zero (embedded as `none`). -/
theorem meal_count_validation_cex :
    (parse_user_inputs rawD).map (fun u => (u.num_meals,
      allocate_macros (distribute_meals u (calculate_anchor_points u)) u)) =
      some (0, none) := by
  decide

set_option maxHeartbeats 1600000 in
/-- C4 (amended): the engine performs no meal-count validation at all:
`parse_user_inputs` accepts any integer meal count and stores it unchanged
(defaulting to 4 when absent), and `allocate_macros` invoked with zero meals
fails with a division by zero instead of being guarded. -/
theorem no_meal_count_validation (d : RawInputs) (u : UserInputs)
    (h : parse_user_inputs d = some u) :
    u.num_meals = d.num_meals.getD 4 ∧ allocate_macros [] u = none := by
  refine ⟨?_, rfl⟩
  simp only [parse_user_inputs, Bind.bind, Option.bind, Option.pure_def] at h
  iterate 16
    all_goals
      try first
        | split at h
        | dsimp only [] at h
  all_goals
    first
      | exact Option.noConfusion h
      | (obtain rfl := Option.some.inj h; simp [mkUserInputs])

theorem no_meal_count_validation_witness :
    (mkUserInputs ⟨7, 0⟩ ⟨23, 0⟩ 2000 100 0 .maintenance none none 60
      (some 200) (some 88)).num_meals = rawD.num_meals.getD 4
  ∧ allocate_macros [] (mkUserInputs ⟨7, 0⟩ ⟨23, 0⟩ 2000 100 0 .maintenance none none 60
      (some 200) (some 88)) = none :=
  no_meal_count_validation rawD
    (mkUserInputs ⟨7, 0⟩ ⟨23, 0⟩ 2000 100 0 .maintenance none none 60
      (some 200) (some 88)) (by decide)

/-- C5 counterexample: with wake 07:00 and a 09:30 workout, the first-meal
anchor (07:45) and the pre-workout anchor (07:45) coincide, so the returned
schedule contains two meals at the same time — the list is not strictly
sorted under any time comparison. -/
theorem chronological_strict_cex :
    distribute_meals userB (calculate_anchor_points userB) =
      [(⟨7, 45⟩, .breakfast), (⟨7, 45⟩, .pre_workout),
       (⟨11, 45⟩, .post_workout), (⟨20, 15⟩, .dinner)]
  ∧ ¬ List.Chain' (fun a b : Wtime × MealType =>
      time_to_minutes a.1 < time_to_minutes b.1)
      (distribute_meals userB (calculate_anchor_points userB)) := by
  have hlist : distribute_meals userB (calculate_anchor_points userB) =
      [(⟨7, 45⟩, .breakfast), (⟨7, 45⟩, .pre_workout),
       (⟨11, 45⟩, .post_workout), (⟨20, 15⟩, .dinner)] := by decide
  refine ⟨hlist, ?_⟩
  rw [hlist]
  intro hch
  have h12 := (List.chain'_cons.mp hch).1
  simp [time_to_minutes] at h12

/-- C5 (amended): the meal list returned by `distribute_meals` is always
sorted (non-strictly) by plain minutes-since-midnight of the meal time; it
need not be strictly sorted (times can repeat), and the comparison is the
plain minutes-since-midnight key, with no wraparound adjustment. -/
theorem distribute_meals_time_sorted (u : UserInputs)
    (anchors : List (String × AnchorPoint)) :
    List.Sorted mealTimeLe (distribute_meals u anchors) := by
  have hmap : ∀ (l : List MealT), List.Sorted timeLe l →
      List.Sorted mealTimeLe (l.map (fun m => (m.1, m.2.1))) := by
    intro l hl
    exact List.pairwise_map.mpr hl
  unfold distribute_meals
  dsimp only
  split
  · split
    · exact hmap _ (List.sorted_insertionSort _ _)
    · exact hmap _ (List.sorted_insertionSort _ _)
  · exact hmap _ (List.sorted_insertionSort _ _)

theorem determine_meal_type_not_workout (t : Wtime) (u : UserInputs) (ex : List MealT) :
    determine_meal_type t u ex ≠ MealType.pre_workout
  ∧ determine_meal_type t u ex ≠ MealType.post_workout := by
  unfold determine_meal_type
  dsimp only
  split_ifs <;> simp

theorem mem_pyInsert {x y : α} : ∀ (n : Nat) (l : List α), y ∈ pyInsert x n l → y = x ∨ y ∈ l
  | 0, l, h => by
    rcases List.mem_cons.mp h with rfl | hmem
    · exact Or.inl rfl
    · exact Or.inr hmem
  | n + 1, [], h => by
    simp [pyInsert] at h
    simp [h]
  | n + 1, z :: l, h => by
    rcases List.mem_cons.mp h with rfl | hmem
    · exact Or.inr (List.mem_cons_self _ _)
    · rcases mem_pyInsert n l hmem with rfl | hmem2
      · exact Or.inl rfl
      · exact Or.inr (List.mem_cons_of_mem _ hmem2)

theorem insertStep_types (u : UserInputs) (P : MealType → Prop)
    (hdet : ∀ t ex, P (determine_meal_type t u ex)) (meals : List MealT)
    (h : ∀ m ∈ meals, P m.2.1) : ∀ m ∈ insertStep u meals, P m.2.1 := by
  unfold insertStep
  dsimp only
  split
  · exact h
  · intro m hm
    rcases mem_pyInsert _ _ hm with rfl | hm'
    · exact hdet _ _
    · exact h m hm'

theorem insertLoop_types (u : UserInputs) (P : MealType → Prop)
    (hdet : ∀ t ex, P (determine_meal_type t u ex)) :
    ∀ (n : Nat) (meals : List MealT), (∀ m ∈ meals, P m.2.1) →
      ∀ m ∈ insertLoop u n meals, P m.2.1
  | 0, _, h => h
  | n + 1, meals, h =>
    insertLoop_types u P hdet n (insertStep u meals) (insertStep_types u P hdet meals h)

theorem distribute_meals_types (u : UserInputs) (anchors : List (String × AnchorPoint))
    (P : MealType → Prop) (hanch : ∀ m ∈ anchorTuples anchors, P m.2.1)
    (hdet : ∀ t ex, P (determine_meal_type t u ex)) :
    ∀ m ∈ distribute_meals u anchors, P m.2 := by
  have h1 : ∀ x ∈ List.insertionSort timeLe (anchorTuples anchors), P x.2.1 :=
    fun x hx => hanch x ((List.mem_insertionSort _).mp hx)
  intro m hm
  unfold distribute_meals at hm
  dsimp only at hm
  split at hm
  · split at hm
    · rcases List.mem_map.mp hm with ⟨m', hm', rfl⟩
      have hmem : m' ∈ List.insertionSort prioGe
          (List.insertionSort timeLe (anchorTuples anchors)) :=
        List.mem_of_mem_take ((List.mem_insertionSort _).mp hm')
      exact h1 m' ((List.mem_insertionSort _).mp hmem)
    · rcases List.mem_map.mp hm with ⟨m', hm', rfl⟩
      exact h1 m' hm'
  · rcases List.mem_map.mp hm with ⟨m', hm', rfl⟩
    exact insertLoop_types u P hdet _ _ h1 m' ((List.mem_insertionSort _).mp hm')

/-- C9: when no workout time is given, the schedule produced by
`calculate_anchor_points` followed by `distribute_meals` contains no
PRE_WORKOUT or POST_WORKOUT meal: the workout anchors are only created for a
workout, and filler typing only produces BREAKFAST/LUNCH/DINNER/SNACK. -/
theorem no_workout_no_workout_meal_types (u : UserInputs)
    (h : u.workout_time = none) :
    ((distribute_meals u (calculate_anchor_points u)).all
      (fun m => decide (m.2 ≠ MealType.pre_workout ∧ m.2 ≠ MealType.post_workout))) = true := by
  rw [List.all_eq_true]
  intro m hm
  rw [decide_eq_true_eq]
  refine distribute_meals_types u (calculate_anchor_points u)
    (fun mt => mt ≠ MealType.pre_workout ∧ mt ≠ MealType.post_workout) ?_ ?_ m hm
  · intro x hx
    simp [calculate_anchor_points, anchorTuples, h] at hx
    rcases hx with rfl | rfl <;> simp
  · intro t ex
    exact determine_meal_type_not_workout t u ex

theorem no_workout_no_workout_meal_types_witness :
    ((distribute_meals userE (calculate_anchor_points userE)).all
      (fun m => decide (m.2 ≠ MealType.pre_workout ∧ m.2 ≠ MealType.post_workout))) = true :=
  no_workout_no_workout_meal_types userE rfl

theorem pyInsert_length (x : α) : ∀ (n : Nat) (l : List α),
    (pyInsert x n l).length = l.length + 1
  | 0, _ => rfl
  | _ + 1, [] => rfl
  | n + 1, _ :: l => by
    simp [pyInsert, pyInsert_length x n l]

theorem insertStep_length (u : UserInputs) (meals : List MealT) :
    (insertStep u meals).length ≤ meals.length + 1 := by
  unfold insertStep
  dsimp only
  split
  · exact Nat.le_succ _
  · exact Nat.le_of_eq (pyInsert_length _ _ _)

theorem insertLoop_length (u : UserInputs) : ∀ (n : Nat) (meals : List MealT),
    (insertLoop u n meals).length ≤ meals.length + n
  | 0, _ => Nat.le_refl _
  | n + 1, meals => by
    have h1 := insertLoop_length u n (insertStep u meals)
    have h2 := insertStep_length u meals
    show (insertLoop u n (insertStep u meals)).length ≤ meals.length + (n + 1)
    omega

theorem gapFold_no_gap :
    ∀ (l : List MealT),
      List.Chain' (fun a b : MealT => time_difference_minutes a.1 b.1 < 300) l →
      ∀ (s : InsState) (i : Nat), gapFold s i l = s
  | [], _, _, _ => rfl
  | [_], _, _, _ => rfl
  | a :: b :: t, h, s, i => by
    obtain ⟨hab, ht⟩ := List.chain'_cons.mp h
    unfold gapFold
    dsimp only
    rw [if_neg (by omega)]
    exact gapFold_no_gap (b :: t) ht s (i + 1)

theorem insertStep_no_gap (u : UserInputs) (meals : List MealT)
    (h1 : time_difference_minutes (get_available_window u).1
      (firstMealTime (get_available_window u).2 meals) < 300)
    (h2 : List.Chain' (fun a b : MealT => time_difference_minutes a.1 b.1 < 300) meals)
    (h3 : ∀ lastm ∈ meals.getLast?,
      time_difference_minutes lastm.1 (get_available_window u).2 < 300) :
    insertStep u meals = meals := by
  unfold insertStep
  dsimp only
  rw [if_neg (by omega), gapFold_no_gap meals h2 ⟨0, 0, none⟩ 0]
  cases hml : meals.getLast? with
  | none => rfl
  | some lastm =>
    have hlast := h3 lastm (by simp [hml])
    dsimp only
    rw [if_neg (by omega)]

theorem distribute_trim_eq (u : UserInputs) (anchors : List (String × AnchorPoint))
    (h : u.num_meals < (anchorTuples anchors).length) :
    distribute_meals u anchors =
      (List.insertionSort timeLe ((rankedByPriority anchors).take u.num_meals)).map
        (fun m => (m.1, m.2.1)) := by
  unfold distribute_meals rankedByPriority
  dsimp only
  rw [if_pos (by rw [List.length_insertionSort]; omega),
    if_pos (by rw [List.length_insertionSort]; omega)]

theorem distribute_len_eq_of_trim (u : UserInputs) (anchors : List (String × AnchorPoint))
    (h : u.num_meals < (anchorTuples anchors).length) :
    (distribute_meals u anchors).length = u.num_meals := by
  rw [distribute_trim_eq u anchors h]
  unfold rankedByPriority
  rw [List.length_map, List.length_insertionSort, List.length_take,
    List.length_insertionSort, List.length_insertionSort]
  omega

theorem distribute_len_le (u : UserInputs) (anchors : List (String × AnchorPoint)) :
    (distribute_meals u anchors).length ≤ u.num_meals := by
  unfold distribute_meals
  dsimp only
  split
  · split
    · rw [List.length_map, List.length_insertionSort, List.length_take]
      omega
    · rename_i hle hnlt
      rw [List.length_insertionSort] at hle hnlt
      rw [List.length_map, List.length_insertionSort]
      omega
  · rename_i hngt
    have hloop := insertLoop_length u
      ((u.num_meals : Int) - (List.insertionSort timeLe (anchorTuples anchors)).length).toNat
      (List.insertionSort timeLe (anchorTuples anchors))
    rw [List.length_map, List.length_insertionSort]
    rw [List.length_insertionSort] at hloop hngt ⊢
    omega

/-- C10: `distribute_meals` returns at most `num_meals` meals: when the
anchors exceed the requested count it trims to exactly `num_meals`, and each
filler iteration adds at most one meal — an iteration that finds no eligible
gap of at least 300 minutes adds none — so the requested count is an upper
bound but not a guaranteed exact count. -/
theorem distribute_meals_count_bound (u : UserInputs)
    (anchors : List (String × AnchorPoint)) :
    (distribute_meals u anchors).length ≤ u.num_meals
  ∧ (u.num_meals < (anchorTuples anchors).length →
      (distribute_meals u anchors).length = u.num_meals)
  ∧ (∀ meals : List MealT, (insertStep u meals).length ≤ meals.length + 1)
  ∧ (∀ meals : List MealT,
      time_difference_minutes (get_available_window u).1
        (firstMealTime (get_available_window u).2 meals) < 300 →
      List.Chain' (fun a b : MealT => time_difference_minutes a.1 b.1 < 300) meals →
      (∀ lastm ∈ meals.getLast?,
        time_difference_minutes lastm.1 (get_available_window u).2 < 300) →
      insertStep u meals = meals) :=
  ⟨distribute_len_le u anchors,
   distribute_len_eq_of_trim u anchors,
   insertStep_length u,
   insertStep_no_gap u⟩

theorem distribute_meals_count_bound_witness :
    (distribute_meals userE (calculate_anchor_points userE)).length ≤ userE.num_meals
  ∧ insertStep userC [(⟨8, 0⟩, .breakfast, 3), (⟨12, 0⟩, .lunch, 1), (⟨16, 30⟩, .dinner, 1)] =
      [(⟨8, 0⟩, .breakfast, 3), (⟨12, 0⟩, .lunch, 1), (⟨16, 30⟩, .dinner, 1)] := by
  constructor
  · exact (distribute_meals_count_bound userE (calculate_anchor_points userE)).1
  · refine (distribute_meals_count_bound userC (calculate_anchor_points userC)).2.2.2
      [(⟨8, 0⟩, .breakfast, 3), (⟨12, 0⟩, .lunch, 1), (⟨16, 30⟩, .dinner, 1)] ?_ ?_ ?_
    · decide
    · refine List.chain'_cons.mpr ⟨by decide, List.chain'_cons.mpr ⟨by decide, ?_⟩⟩
      exact List.chain'_singleton _
    · intro lastm hl
      simp only [List.getLast?_cons_cons, List.getLast?_singleton, Option.mem_def,
        Option.some.injEq] at hl
      subst hl
      decide

theorem orderedInsert_filter_prio (p : Int) :
    ∀ (l : List MealT) (a : MealT),
      (List.orderedInsert prioGe a l).filter (fun m => decide (m.2.2 = p)) =
        (if a.2.2 = p then a :: l.filter (fun m => decide (m.2.2 = p))
         else l.filter (fun m => decide (m.2.2 = p)))
  | [], a => by
    simp only [List.orderedInsert, List.filter]
    by_cases ha : a.2.2 = p <;> simp [ha]
  | b :: l, a => by
    by_cases hab : prioGe a b
    · rw [List.orderedInsert_of_le _ _ hab]
      by_cases ha : a.2.2 = p <;> simp [List.filter_cons, ha]
    · have hlt : b.2.2 < a.2.2 ∨ a.2.2 < b.2.2 := by
        unfold prioGe at hab
        omega
      have hlt2 : a.2.2 < b.2.2 := by
        unfold prioGe at hab
        omega
      have hrw : List.orderedInsert prioGe a (b :: l) =
          b :: List.orderedInsert prioGe a l := by
        simp [List.orderedInsert, hab]
      rw [hrw]
      have ih := orderedInsert_filter_prio p l a
      by_cases hb : b.2.2 = p
      · have ha : ¬ a.2.2 = p := by omega
        simp [List.filter_cons, hb, ha, ih]
      · by_cases ha : a.2.2 = p <;> simp [List.filter_cons, hb, ha, ih]

theorem insertionSort_filter_prio (p : Int) :
    ∀ (l : List MealT),
      (List.insertionSort prioGe l).filter (fun m => decide (m.2.2 = p)) =
        l.filter (fun m => decide (m.2.2 = p))
  | [] => rfl
  | a :: l => by
    rw [List.insertionSort, orderedInsert_filter_prio p _ a,
      insertionSort_filter_prio p l]
    by_cases ha : a.2.2 = p <;> simp [List.filter_cons, ha]

theorem sorted_take_drop_prio (l : List MealT) (n : Nat)
    (hs : List.Sorted prioGe l) :
    ∀ x ∈ l.take n, ∀ y ∈ l.drop n, y.2.2 ≤ x.2.2 := by
  rw [← List.take_append_drop n l] at hs
  exact (List.pairwise_append.mp hs).2.2

theorem post_workout_kept (u : UserInputs) (w : Wtime)
    (hw : u.workout_time = some w) (hn : 1 ≤ u.num_meals)
    (h : u.num_meals < (anchorTuples (calculate_anchor_points u)).length) :
    ∃ m ∈ distribute_meals u (calculate_anchor_points u),
      m.2 = MealType.post_workout := by
  have hA : anchorTuples (calculate_anchor_points u) =
      [(add_minutes_to_time u.wake_time 45, .breakfast, 3),
       (add_minutes_to_time u.sleep_time (-165), .dinner, 3),
       (add_minutes_to_time w (-105), .pre_workout, 4),
       (add_minutes_to_time (add_minutes_to_time w u.workout_duration_min) 75,
        .post_workout, 5)] := by
    simp [anchorTuples, calculate_anchor_points, hw]
  have hperm : List.Perm (rankedByPriority (calculate_anchor_points u))
      (anchorTuples (calculate_anchor_points u)) :=
    (List.perm_insertionSort prioGe _).trans (List.perm_insertionSort timeLe _)
  cases hr : rankedByPriority (calculate_anchor_points u) with
  | nil =>
    exfalso
    have := hperm.length_eq
    rw [hr, hA] at this
    simp at this
  | cons hd tl =>
    have hsorted : List.Sorted prioGe (hd :: tl) := by
      rw [← hr]
      exact List.sorted_insertionSort prioGe _
    have hhd : ∀ y ∈ tl, y.2.2 ≤ hd.2.2 :=
      fun y hy => (List.pairwise_cons.mp hsorted).1 y hy
    have hpostmem : (add_minutes_to_time (add_minutes_to_time w u.workout_duration_min) 75,
        MealType.post_workout, (5 : Int)) ∈ hd :: tl := by
      rw [← hr]
      refine hperm.mem_iff.mpr ?_
      rw [hA]
      simp
    have h5 : (5 : Int) ≤ hd.2.2 := by
      rcases List.mem_cons.mp hpostmem with heq | hmem
      · rw [← heq]
      · exact hhd _ hmem
    have hdmem : hd ∈ anchorTuples (calculate_anchor_points u) := by
      refine hperm.mem_iff.mp ?_
      rw [hr]
      exact List.mem_cons_self _ _
    have hdty : hd.2.1 = MealType.post_workout := by
      rw [hA] at hdmem
      simp only [List.mem_cons, List.not_mem_nil, or_false] at hdmem
      rcases hdmem with rfl | rfl | rfl | rfl
      · simp at h5
      · simp at h5
      · simp at h5
      · rfl
    have hdkept : hd ∈ (rankedByPriority (calculate_anchor_points u)).take u.num_meals := by
      rw [hr]
      cases hnm : u.num_meals with
      | zero => omega
      | succ k => simp
    rw [distribute_trim_eq u (calculate_anchor_points u) h]
    refine ⟨(hd.1, hd.2.1), ?_, hdty⟩
    exact List.mem_map.mpr ⟨hd, (List.mem_insertionSort _).mpr hdkept, rfl⟩

/-- C7: when the anchors exceed the requested meal count, `distribute_meals`
keeps exactly `num_meals` meals, namely the first `num_meals` of the stable
priority-descending sort of the time-sorted anchors (equal priorities keep
their chronological order), re-sorted by time; no kept meal has lower
priority than any dropped one, and the priority-5 POST_WORKOUT anchor is
never dropped. -/
theorem trim_keeps_highest_priority (u : UserInputs)
    (anchors : List (String × AnchorPoint))
    (h : u.num_meals < (anchorTuples anchors).length) :
    (distribute_meals u anchors).length = u.num_meals
  ∧ distribute_meals u anchors =
      (List.insertionSort timeLe ((rankedByPriority anchors).take u.num_meals)).map
        (fun m => (m.1, m.2.1))
  ∧ (∀ x ∈ (rankedByPriority anchors).take u.num_meals,
      ∀ y ∈ (rankedByPriority anchors).drop u.num_meals, y.2.2 ≤ x.2.2)
  ∧ (∀ p : Int, (rankedByPriority anchors).filter (fun m => decide (m.2.2 = p)) =
      (List.insertionSort timeLe (anchorTuples anchors)).filter
        (fun m => decide (m.2.2 = p)))
  ∧ (anchors = calculate_anchor_points u → u.workout_time.isSome →
      1 ≤ u.num_meals →
      ∃ m ∈ distribute_meals u anchors, m.2 = MealType.post_workout) := by
  refine ⟨distribute_len_eq_of_trim u anchors h, distribute_trim_eq u anchors h,
    sorted_take_drop_prio _ _ (List.sorted_insertionSort prioGe _),
    fun p => insertionSort_filter_prio p _, ?_⟩
  rintro rfl hw hn
  obtain ⟨w, hw'⟩ := Option.isSome_iff_exists.mp hw
  exact post_workout_kept u w hw' hn h

theorem trim_keeps_highest_priority_witness :
    (distribute_meals userC (calculate_anchor_points userC)).length = userC.num_meals
  ∧ distribute_meals userC (calculate_anchor_points userC) =
      (List.insertionSort timeLe
        ((rankedByPriority (calculate_anchor_points userC)).take userC.num_meals)).map
        (fun m => (m.1, m.2.1))
  ∧ (∀ x ∈ (rankedByPriority (calculate_anchor_points userC)).take userC.num_meals,
      ∀ y ∈ (rankedByPriority (calculate_anchor_points userC)).drop userC.num_meals,
        y.2.2 ≤ x.2.2)
  ∧ (∀ p : Int, (rankedByPriority (calculate_anchor_points userC)).filter
        (fun m => decide (m.2.2 = p)) =
      (List.insertionSort timeLe (anchorTuples (calculate_anchor_points userC))).filter
        (fun m => decide (m.2.2 = p)))
  ∧ (calculate_anchor_points userC = calculate_anchor_points userC →
      userC.workout_time.isSome → 1 ≤ userC.num_meals →
      ∃ m ∈ distribute_meals userC (calculate_anchor_points userC),
        m.2 = MealType.post_workout) :=
  trim_keeps_highest_priority userC (calculate_anchor_points userC) (by decide)
